import Mathlib

/-!
Shallow embedding of the trade-candidate search engine of `src/main.py`
(fantasy trade generator).  Player identifiers are opaque keys, modelled as
naturals; valuations are rationals.  Only the id/value fields of the Python
trade dictionaries are modelled: the `you_give` / `you_receive` name lists are
derived from the ids via the `all_players` metadata map purely for display and
play no role in the search logic.
-/

namespace TradeBot

abbrev PlayerId := ℕ

/-- A valuation table: finite mapping from player id to value
(`player_values` dict in the source). -/
abbrev ValTable := List (PlayerId × ℚ)

/-- Dictionary lookup defaulting to 0, as in `player_values.get(p, 0)`. -/
def lookupVal (player_values : ValTable) (p : PlayerId) : ℚ :=
  (player_values.lookup p).getD 0

/-- Module-level constant `FAIR_TRADE_THRESHOLD = 0.15` of `src/main.py`. -/
def FAIR_TRADE_THRESHOLD : ℚ := 15 / 100

/-- The pricer `calculate_trade_value(players_given, players_received,
player_values)`: sums of valuations over the two id sequences (missing ids
contribute 0). -/
def calculate_trade_value (players_given players_received : List PlayerId)
    (player_values : ValTable) : ℚ × ℚ :=
  ((players_given.map (lookupVal player_values)).sum,
   (players_received.map (lookupVal player_values)).sum)

/-- The fairness predicate `is_fair_trade(given_value, received_value)`:
false when either side is 0, otherwise `max/min <= 1 + FAIR_TRADE_THRESHOLD`. -/
def is_fair_trade (given_value received_value : ℚ) : Bool :=
  if given_value = 0 ∨ received_value = 0 then false
  else
    decide (max given_value received_value / min given_value received_value ≤
      1 + FAIR_TRADE_THRESHOLD)

/-- Python's `itertools.combinations(l, r)`: all `r`-element subsequences of
`l`, each in the element order of `l`, emitted in lexicographic index order. -/
def combinations : List PlayerId → ℕ → List (List PlayerId)
  | _, 0 => [[]]
  | [], _ + 1 => []
  | x :: xs, r + 1 => (combinations xs r).map (x :: ·) ++ combinations xs (r + 1)

/-- One trade candidate (the dictionaries built by the strategies, restricted
to id/value fields; `type` is the consolidation shape tag, `team_id` and
`balanced` appear only on custom trades). -/
structure Trade where
  you_give_ids : List PlayerId
  you_receive_ids : List PlayerId
  you_give_value : ℚ
  you_receive_value : ℚ
  net_value : ℚ
  type : Option String := none
  team_id : Option ℕ := none
  balanced : Bool := false
deriving Repr, DecidableEq

/-- A league roster entry (`roster_id` plus its `players` id list). -/
structure Roster where
  roster_id : ℕ
  players : List PlayerId
deriving Repr, DecidableEq

/-- Descending-by-`net_value` comparison used by
`trades.sort(key=lambda x: x['net_value'], reverse=True)`; Python's sort is
stable, as is `List.mergeSort` with this total preorder. -/
def byNetValueDesc (a b : Trade) : Bool :=
  decide (b.net_value ≤ a.net_value)

/-- Target acquisition (`generate_target_player_trades`): acquire a fixed
target player with give-side subsets of size `1..max_players`. -/
def generate_target_player_trades (target_player_id : PlayerId)
    (my_roster opponent_roster : List PlayerId) (player_values : ValTable)
    (max_players : ℕ := 3) : List Trade :=
  if target_player_id ∉ opponent_roster then []
  else
    let target_value := lookupVal player_values target_player_id
    if target_value = 0 then []
    else
      (List.range' 1 (min max_players my_roster.length)).flatMap fun r =>
        (combinations my_roster r).filterMap fun combo =>
          let v := calculate_trade_value combo [target_player_id] player_values
          if is_fair_trade v.1 v.2 then
            some { you_give_ids := combo, you_receive_ids := [target_player_id],
                   you_give_value := v.1, you_receive_value := v.2,
                   net_value := v.2 - v.1 }
          else none

/-- The unsorted candidate pool built by the nested loops of
`generate_value_improvement_trades` before ranking and truncation. -/
def vi_candidates (my_roster opponent_roster : List PlayerId)
    (player_values : ValTable) (max_players : ℕ) : List Trade :=
  (List.range' 1 (min max_players my_roster.length)).flatMap fun my_r =>
    (List.range' 1 (min max_players opponent_roster.length)).flatMap fun opp_r =>
      (combinations my_roster my_r).flatMap fun my_combo =>
        (combinations opponent_roster opp_r).filterMap fun opp_combo =>
          let v := calculate_trade_value my_combo opp_combo player_values
          if v.2 > v.1 ∧ is_fair_trade v.1 v.2 then
            some { you_give_ids := my_combo, you_receive_ids := opp_combo,
                   you_give_value := v.1, you_receive_value := v.2,
                   net_value := v.2 - v.1 }
          else none

/-- Value improvement (`generate_value_improvement_trades`): candidates where
you gain value, sorted by net value descending, top 20. -/
def generate_value_improvement_trades (my_roster opponent_roster : List PlayerId)
    (player_values : ValTable) (max_players : ℕ := 3) : List Trade :=
  ((vi_candidates my_roster opponent_roster player_values max_players).mergeSort
    byNetValueDesc).take 20

/-- The unsorted candidate pool of `generate_consolidation_trades`
(2-for-1 trades followed by 3-for-2 trades, in generation order). -/
def consolidation_candidates (my_roster opponent_roster : List PlayerId)
    (player_values : ValTable) : List Trade :=
  ((combinations my_roster 2).flatMap fun my_combo =>
    opponent_roster.filterMap fun opp_player =>
      let v := calculate_trade_value my_combo [opp_player] player_values
      if v.2 > 0 ∧ is_fair_trade v.1 v.2 then
        some { you_give_ids := my_combo, you_receive_ids := [opp_player],
               you_give_value := v.1, you_receive_value := v.2,
               net_value := v.2 - v.1, type := some "2-for-1" }
      else none) ++
  ((combinations my_roster 3).flatMap fun my_combo =>
    (combinations opponent_roster 2).filterMap fun opp_combo =>
      let v := calculate_trade_value my_combo opp_combo player_values
      if v.2 > 0 ∧ is_fair_trade v.1 v.2 then
        some { you_give_ids := my_combo, you_receive_ids := opp_combo,
               you_give_value := v.1, you_receive_value := v.2,
               net_value := v.2 - v.1, type := some "3-for-2" }
      else none)

/-- Consolidation (`generate_consolidation_trades`): 2-for-1 and 3-for-2
candidates, sorted by net value descending, top 25. -/
def generate_consolidation_trades (my_roster opponent_roster : List PlayerId)
    (player_values : ValTable) : List Trade :=
  ((consolidation_candidates my_roster opponent_roster player_values).mergeSort
    byNetValueDesc).take 25

/-- Buy low (`generate_buy_low_trades`): the value-improvement pass with
`max_players=2`, filtered to candidates receiving no more players than given,
first 15. -/
def generate_buy_low_trades (my_roster opponent_roster : List PlayerId)
    (player_values : ValTable) (max_players : ℕ := 2) : List Trade :=
  let trades := generate_value_improvement_trades my_roster opponent_roster
    player_values max_players
  (trades.filter fun t =>
    t.you_receive_ids.length ≤ t.you_give_ids.length).take 15

/-- Custom balancing (`generate_custom_trades`): for each roster holding every
requested receive player, emit the selection if fair, otherwise (when
receiving more value) try adding one extra unused player from `my_roster` at a
time. -/
def generate_custom_trades (selected_give selected_receive my_roster : List PlayerId)
    (all_rosters : List Roster) (player_values : ValTable) : List Trade :=
  if selected_receive = [] then []
  else
    let given_value := (selected_give.map (lookupVal player_values)).sum
    let received_value := (selected_receive.map (lookupVal player_values)).sum
    all_rosters.flatMap fun roster =>
      let opponent_roster := roster.players
      if ∀ p ∈ selected_receive, p ∈ opponent_roster then
        if is_fair_trade given_value received_value then
          [{ you_give_ids := selected_give, you_receive_ids := selected_receive,
             you_give_value := given_value, you_receive_value := received_value,
             net_value := received_value - given_value,
             team_id := some roster.roster_id }]
        else if received_value - given_value > 0 then
          my_roster.filterMap fun player =>
            if player ∉ selected_give then
              let new_given := selected_give ++ [player]
              let new_given_value := (new_given.map (lookupVal player_values)).sum
              if is_fair_trade new_given_value received_value then
                some { you_give_ids := new_given,
                       you_receive_ids := selected_receive,
                       you_give_value := new_given_value,
                       you_receive_value := received_value,
                       net_value := received_value - new_given_value,
                       team_id := some roster.roster_id, balanced := true }
              else none
            else none
        else []
      else []

/-- The subset enumeration shared by the strategies: Python's
`for r in range(1, min(max_players + 1, len(roster) + 1)):
for combo in combinations(roster, r)`. -/
def enumerate_subsets (roster : List PlayerId) (max_players : ℕ) :
    List (List PlayerId) :=
  (List.range' 1 (min max_players roster.length)).flatMap (combinations roster)

/-! ### Lemmas about the combination enumerator -/

theorem mem_combinations {l : List PlayerId} {r : ℕ} {s : List PlayerId} :
    s ∈ combinations l r ↔ s.Sublist l ∧ s.length = r := by
  induction l generalizing r s with
  | nil =>
    cases r with
    | zero =>
      simp only [combinations, List.mem_singleton, List.sublist_nil]
      constructor
      · rintro rfl; exact ⟨rfl, rfl⟩
      · rintro ⟨rfl, _⟩; rfl
    | succ r =>
      simp only [combinations, List.not_mem_nil, false_iff, not_and,
        List.sublist_nil]
      rintro rfl
      simp
  | cons x xs ih =>
    cases r with
    | zero =>
      simp only [combinations, List.mem_singleton, List.length_eq_zero]
      constructor
      · rintro rfl; exact ⟨List.nil_sublist _, rfl⟩
      · rintro ⟨_, rfl⟩; rfl
    | succ r =>
      simp only [combinations, List.mem_append, List.mem_map, ih]
      constructor
      · rintro (⟨t, ⟨hsub, hlen⟩, rfl⟩ | ⟨hsub, hlen⟩)
        · exact ⟨List.cons_sublist_cons.mpr hsub, by simp [hlen]⟩
        · exact ⟨hsub.cons x, hlen⟩
      · rintro ⟨hsub, hlen⟩
        rcases List.sublist_cons_iff.mp hsub with h | ⟨t, rfl, ht⟩
        · exact Or.inr ⟨h, hlen⟩
        · exact Or.inl ⟨t, ⟨ht, by simpa using hlen⟩, rfl⟩

theorem nodup_combinations {l : List PlayerId} (hl : l.Nodup) (r : ℕ) :
    (combinations l r).Nodup := by
  induction l generalizing r with
  | nil => cases r <;> simp [combinations]
  | cons x xs ih =>
    have hx : x ∉ xs := (List.nodup_cons.mp hl).1
    have hxs : xs.Nodup := (List.nodup_cons.mp hl).2
    cases r with
    | zero => simp [combinations]
    | succ r =>
      rw [combinations]
      refine List.Nodup.append ((ih hxs r).map fun a b h => by simpa using h)
        (ih hxs (r + 1)) ?_
      intro s hs1 hs2
      obtain ⟨t, _, rfl⟩ := List.mem_map.mp hs1
      exact hx ((mem_combinations.mp hs2).1.subset (List.mem_cons_self x t))

theorem mem_enumerate_subsets {roster : List PlayerId} {k : ℕ}
    {s : List PlayerId} :
    s ∈ enumerate_subsets roster k ↔
      s.Sublist roster ∧ 1 ≤ s.length ∧ s.length ≤ k := by
  simp only [enumerate_subsets, List.mem_flatMap, List.mem_range'_1,
    mem_combinations]
  constructor
  · rintro ⟨r, ⟨h1, h2⟩, hsub, rfl⟩
    exact ⟨hsub, h1, by omega⟩
  · rintro ⟨hsub, h1, h2⟩
    have := hsub.length_le
    exact ⟨s.length, ⟨h1, by omega⟩, hsub, rfl⟩

theorem nodup_enumerate_subsets {roster : List PlayerId} (h : roster.Nodup)
    (k : ℕ) : (enumerate_subsets roster k).Nodup := by
  rw [enumerate_subsets, List.nodup_flatMap]
  refine ⟨fun r _ => nodup_combinations h r, ?_⟩
  refine (List.pairwise_lt_range' 1 _).imp fun {a b} hab => ?_
  intro s hs1 hs2
  have h1 := (mem_combinations.mp hs1).2
  have h2 := (mem_combinations.mp hs2).2
  omega

/-! ### Membership characterizations of the strategy outputs -/

theorem is_fair_trade_ne_zero {a b : ℚ} (h : is_fair_trade a b = true) :
    a ≠ 0 ∧ b ≠ 0 := by
  unfold is_fair_trade at h
  split at h
  · simp at h
  · next hc => push_neg at hc; exact hc

theorem mem_vi_candidates {my_roster opponent_roster : List PlayerId}
    {V : ValTable} {k : ℕ} {t : Trade}
    (h : t ∈ vi_candidates my_roster opponent_roster V k) :
    t.you_give_ids ∈ enumerate_subsets my_roster k ∧
    t.you_receive_ids ∈ enumerate_subsets opponent_roster k ∧
    t.you_give_value = (t.you_give_ids.map (lookupVal V)).sum ∧
    t.you_receive_value = (t.you_receive_ids.map (lookupVal V)).sum ∧
    t.net_value = t.you_receive_value - t.you_give_value ∧
    t.you_receive_value > t.you_give_value ∧
    is_fair_trade t.you_give_value t.you_receive_value = true := by
  simp only [vi_candidates, List.mem_flatMap, List.mem_filterMap] at h
  obtain ⟨my_r, hmyr, opp_r, hoppr, mc, hmc, oc, hoc, hsome⟩ := h
  simp only [calculate_trade_value] at hsome
  split at hsome
  · next hcond =>
    obtain ⟨hgt, hfair⟩ := hcond
    cases hsome
    refine ⟨?_, ?_, rfl, rfl, rfl, hgt, hfair⟩
    · exact List.mem_flatMap.mpr ⟨my_r, hmyr, hmc⟩
    · exact List.mem_flatMap.mpr ⟨opp_r, hoppr, hoc⟩
  · cases hsome

theorem mem_value_improvement {my_roster opponent_roster : List PlayerId}
    {V : ValTable} {k : ℕ} {t : Trade}
    (h : t ∈ generate_value_improvement_trades my_roster opponent_roster V k) :
    t ∈ vi_candidates my_roster opponent_roster V k :=
  List.mem_mergeSort.mp ((List.take_subset _ _) h)

theorem mem_consolidation_candidates {my_roster opponent_roster : List PlayerId}
    {V : ValTable} {t : Trade}
    (h : t ∈ consolidation_candidates my_roster opponent_roster V) :
    t.you_give_ids.Sublist my_roster ∧
    (t.you_give_ids.length = 2 ∨ t.you_give_ids.length = 3) ∧
    (∀ x ∈ t.you_receive_ids, x ∈ opponent_roster) ∧
    (t.you_receive_ids.length = 1 ∨ t.you_receive_ids.length = 2) ∧
    t.you_receive_value > 0 ∧
    is_fair_trade t.you_give_value t.you_receive_value = true := by
  simp only [consolidation_candidates, List.mem_append, List.mem_flatMap,
    List.mem_filterMap] at h
  rcases h with ⟨mc, hmc, p, hp, hsome⟩ | ⟨mc, hmc, oc, hoc, hsome⟩
  · simp only [calculate_trade_value] at hsome
    split at hsome
    · next hcond =>
      cases hsome
      have hsub := mem_combinations.mp hmc
      refine ⟨hsub.1, Or.inl hsub.2, ?_, Or.inl rfl, hcond.1, hcond.2⟩
      intro x hx
      simp only [List.mem_singleton] at hx
      exact hx ▸ hp
    · cases hsome
  · simp only [calculate_trade_value] at hsome
    split at hsome
    · next hcond =>
      cases hsome
      have hsub := mem_combinations.mp hmc
      have hsub2 := mem_combinations.mp hoc
      exact ⟨hsub.1, Or.inr hsub.2, fun x hx => hsub2.1.subset hx,
        Or.inr hsub2.2, hcond.1, hcond.2⟩
    · cases hsome

theorem mem_target_trades {target : PlayerId}
    {my_roster opponent_roster : List PlayerId} {V : ValTable} {k : ℕ}
    {t : Trade}
    (h : t ∈ generate_target_player_trades target my_roster opponent_roster
      V k) :
    t.you_give_ids ∈ enumerate_subsets my_roster k ∧
    t.you_receive_ids = [target] ∧ target ∈ opponent_roster ∧
    is_fair_trade t.you_give_value t.you_receive_value = true := by
  unfold generate_target_player_trades at h
  split at h
  · cases h
  · next htgt =>
    rw [not_not] at htgt
    dsimp only at h
    split at h
    · cases h
    · simp only [List.mem_flatMap, List.mem_filterMap,
        calculate_trade_value] at h
      obtain ⟨r, hr, mc, hmc, hsome⟩ := h
      split at hsome
      · next hcond =>
        cases hsome
        exact ⟨List.mem_flatMap.mpr ⟨r, hr, hmc⟩, rfl, htgt, hcond⟩
      · cases hsome

theorem mem_custom_trades {selected_give selected_receive my_roster :
    List PlayerId} {all_rosters : List Roster} {V : ValTable} {t : Trade}
    (h : t ∈ generate_custom_trades selected_give selected_receive my_roster
      all_rosters V) :
    selected_receive ≠ [] ∧ t.you_receive_ids = selected_receive ∧
    (∃ r ∈ all_rosters, t.team_id = some r.roster_id ∧
      ∀ p ∈ selected_receive, p ∈ r.players) ∧
    ((t.you_give_ids = selected_give ∧
        is_fair_trade ((selected_give.map (lookupVal V)).sum)
          ((selected_receive.map (lookupVal V)).sum) = true) ∨
      (∃ p ∈ my_roster, p ∉ selected_give ∧
        t.you_give_ids = selected_give ++ [p])) := by
  unfold generate_custom_trades at h
  split at h
  · cases h
  · next hne =>
    simp only [List.mem_flatMap] at h
    obtain ⟨r, hr, ht⟩ := h
    split at ht
    · next hall =>
      split at ht
      · next hfair =>
        simp only [List.mem_singleton] at ht
        cases ht
        exact ⟨hne, rfl, ⟨r, hr, rfl, hall⟩, Or.inl ⟨rfl, hfair⟩⟩
      · next hfair =>
        split at ht
        · simp only [List.mem_filterMap] at ht
          obtain ⟨p, hp, hsome⟩ := ht
          split at hsome
          · next hnotin =>
            split at hsome
            · cases hsome
              exact ⟨hne, rfl, ⟨r, hr, rfl, hall⟩,
                Or.inr ⟨p, hp, hnotin, rfl⟩⟩
            · cases hsome
          · cases hsome
        · cases ht
    · cases ht

/-- The sorted pass of every ranked strategy is non-increasing in net value. -/
theorem pairwise_desc_mergeSort (l : List Trade) :
    (l.mergeSort byNetValueDesc).Pairwise
      (fun a b => b.net_value ≤ a.net_value) := by
  have h := @List.sorted_mergeSort Trade byNetValueDesc
    (fun a b c hab hbc => by
      simp only [byNetValueDesc, decide_eq_true_eq] at *
      exact le_trans hbc hab)
    (fun a b => by
      simp only [byNetValueDesc]
      rcases le_total a.net_value b.net_value with h | h <;> simp [h]) l
  exact h.imp fun hab => by
    simpa only [byNetValueDesc, decide_eq_true_eq] using hab

/-! ### Claim theorems -/

/-- C1: for all values `a`, `b` and the default threshold `t = 0.15`, the
fairness predicate returns true iff both `a` and `b` are nonzero and
`max(a,b)/min(a,b) ≤ 1 + t`; in particular it returns false whenever either
value is zero, for any value of the other side. -/
theorem is_fair_trade_iff_ratio_within_threshold :
    (∀ a b : ℚ,
      is_fair_trade a b = true ↔
        a ≠ 0 ∧ b ≠ 0 ∧ max a b / min a b ≤ 1 + FAIR_TRADE_THRESHOLD) ∧
    FAIR_TRADE_THRESHOLD = 15 / 100 ∧
    (∀ x : ℚ, is_fair_trade 0 x = false ∧ is_fair_trade x 0 = false) := by
  have key : ∀ a b : ℚ,
      is_fair_trade a b = true ↔
        a ≠ 0 ∧ b ≠ 0 ∧ max a b / min a b ≤ 1 + FAIR_TRADE_THRESHOLD := by
    intro a b
    unfold is_fair_trade
    split
    · next h =>
      simp only [Bool.false_eq_true, false_iff, not_and]
      intro ha hb
      exact absurd h (by tauto)
    · next h =>
      push_neg at h
      simp [h.1, h.2]
  refine ⟨key, rfl, fun x => ⟨?_, ?_⟩⟩ <;> simp [is_fair_trade]

set_option linter.unusedVariables false in
/-- C2: for every duplicate-free roster and maximum subset size `k ≥ 1`, the
subset enumeration produces every subset of size `1..k` exactly once, each in
original roster order; in particular for roster `[a,b,c]` and max size 2 it
produces exactly `[a],[b],[c],[a,b],[a,c],[b,c]`. -/
theorem enumerate_subsets_complete (roster : List PlayerId) (k : ℕ)
    (hk : 1 ≤ k) (hnd : roster.Nodup) :
    (∀ s, s ∈ enumerate_subsets roster k ↔
        s.Sublist roster ∧ 1 ≤ s.length ∧ s.length ≤ k) ∧
    (enumerate_subsets roster k).Nodup ∧
    (∀ a b c : PlayerId,
      enumerate_subsets [a, b, c] 2 =
        [[a], [b], [c], [a, b], [a, c], [b, c]]) := by
  refine ⟨fun s => mem_enumerate_subsets, nodup_enumerate_subsets hnd k,
    fun a b c => ?_⟩
  rfl

/-- Witness for C2 at roster `[0,1,2]`, `k = 2`. -/
theorem enumerate_subsets_complete_witness :
    1 ≤ 2 ∧ ([0, 1, 2] : List PlayerId).Nodup ∧
      enumerate_subsets [0, 1, 2] 2 =
        [[0], [1], [2], [0, 1], [0, 2], [1, 2]] :=
  ⟨by decide, by decide,
    (enumerate_subsets_complete [0, 1, 2] 2 (by decide) (by decide)).2.2 0 1 2⟩

/-- C4: on roster mine `[P1, P2]` (values 50, 60), theirs `[P3]` (value 105),
default threshold, target `P3`, the target-acquisition search returns exactly
one candidate: give `[P1, P2]` (value 110), receive `[P3]` (value 105), net
value −5; neither single-player give subset is fair against 105. -/
theorem target_trade_end_to_end_example :
    generate_target_player_trades 3 [1, 2] [3] [(1, 50), (2, 60), (3, 105)] =
      [{ you_give_ids := [1, 2], you_receive_ids := [3],
         you_give_value := 110, you_receive_value := 105,
         net_value := -5 }] ∧
    is_fair_trade 50 105 = false ∧ is_fair_trade 60 105 = false := by
  have h50 : is_fair_trade 50 105 = false := by
    unfold is_fair_trade FAIR_TRADE_THRESHOLD; rw [max_def, min_def]; norm_num
  have h60 : is_fair_trade 60 105 = false := by
    unfold is_fair_trade FAIR_TRADE_THRESHOLD; rw [max_def, min_def]; norm_num
  have h110 : is_fair_trade 110 105 = true := by
    unfold is_fair_trade FAIR_TRADE_THRESHOLD; rw [max_def, min_def]; norm_num
  have l1 : lookupVal [(1, 50), (2, 60), (3, 105)] 1 = 50 := rfl
  have l2 : lookupVal [(1, 50), (2, 60), (3, 105)] 2 = 60 := rfl
  have l3 : lookupVal [(1, 50), (2, 60), (3, 105)] 3 = 105 := rfl
  refine ⟨?_, h50, h60⟩
  norm_num [generate_target_player_trades, combinations, calculate_trade_value,
    List.range', List.filterMap_cons, List.filterMap_nil, List.map_cons,
    List.map_nil, List.sum_cons, List.sum_nil, l1, l2, l3, h50, h60, h110]

/-- C7: value improvement never returns more than 20 candidates, consolidation
never more than 25, buy-low never more than 15, for every input. -/
theorem truncation_bounds (my_roster opponent_roster : List PlayerId)
    (player_values : ValTable) (k k' : ℕ) :
    (generate_value_improvement_trades my_roster opponent_roster
        player_values k).length ≤ 20 ∧
    (generate_consolidation_trades my_roster opponent_roster
        player_values).length ≤ 25 ∧
    (generate_buy_low_trades my_roster opponent_roster
        player_values k').length ≤ 15 :=
  ⟨List.length_take_le _ _, List.length_take_le _ _, List.length_take_le _ _⟩

/-- C8: the target-acquisition search returns `[]` (and cannot fail) whenever
the target is not on the counterpart roster, and whenever the target's
valuation is 0 or absent from the valuation table. -/
theorem target_search_edge_cases (target : PlayerId)
    (my_roster opponent_roster : List PlayerId) (player_values : ValTable)
    (k : ℕ) :
    (target ∉ opponent_roster →
      generate_target_player_trades target my_roster opponent_roster
        player_values k = []) ∧
    (lookupVal player_values target = 0 →
      generate_target_player_trades target my_roster opponent_roster
        player_values k = []) ∧
    (player_values.lookup target = none →
      generate_target_player_trades target my_roster opponent_roster
        player_values k = []) := by
  refine ⟨fun h => by simp [generate_target_player_trades, h], fun h => ?_,
    fun h => ?_⟩
  · unfold generate_target_player_trades
    split
    · rfl
    · simp [h]
  · unfold generate_target_player_trades
    split
    · rfl
    · simp [lookupVal, h]

/-- Witness for C8: target 5 is not on roster `[2]`, has no valuation, and the
search returns `[]`. -/
theorem target_search_edge_cases_witness :
    (5 : PlayerId) ∉ ([2] : List PlayerId) ∧
      generate_target_player_trades 5 [1] [2] [] 3 = [] :=
  ⟨by decide, (target_search_edge_cases 5 [1] [2] [] 3).1 (by decide)⟩

/-- C9: the pricer returns the pair of valuation sums over the two id
sequences, a missing identifier contributing 0 rather than an error; in
particular `price([a,b],[],V)` has give value `V[a] + V[b]` whenever `V`
contains `a` and `b`. -/
theorem calculate_trade_value_spec :
    (∀ (g r : List PlayerId) (V : ValTable),
      calculate_trade_value g r V =
        ((g.map fun p => ((V.lookup p).getD 0)).sum,
         (r.map fun p => ((V.lookup p).getD 0)).sum)) ∧
    (∀ (V : ValTable) (p : PlayerId), V.lookup p = none → lookupVal V p = 0) ∧
    (∀ (V : ValTable) (a b : PlayerId) (va vb : ℚ),
      V.lookup a = some va → V.lookup b = some vb →
      (calculate_trade_value [a, b] [] V).1 = va + vb) := by
  refine ⟨fun g r V => rfl, fun V p h => by simp [lookupVal, h], ?_⟩
  intro V a b va vb ha hb
  simp [calculate_trade_value, lookupVal, ha, hb]

/-- C3: every value-improvement candidate gains value and is fair, and the
value-improvement and consolidation result lists are non-increasing in net
value. -/
theorem value_improvement_invariant_and_ranking
    (my_roster opponent_roster : List PlayerId) (V : ValTable) (k : ℕ) :
    (∀ t ∈ generate_value_improvement_trades my_roster opponent_roster V k,
      t.you_receive_value > t.you_give_value ∧
      is_fair_trade t.you_give_value t.you_receive_value = true) ∧
    (generate_value_improvement_trades my_roster opponent_roster V k).Pairwise
      (fun a b => b.net_value ≤ a.net_value) ∧
    (generate_consolidation_trades my_roster opponent_roster V).Pairwise
      (fun a b => b.net_value ≤ a.net_value) := by
  refine ⟨fun t ht => ?_, ?_, ?_⟩
  · have h := mem_vi_candidates (mem_value_improvement ht)
    exact ⟨h.2.2.2.2.2.1, h.2.2.2.2.2.2⟩
  · unfold generate_value_improvement_trades
    exact List.Pairwise.sublist (List.take_sublist _ _)
      (pairwise_desc_mergeSort _)
  · unfold generate_consolidation_trades
    exact List.Pairwise.sublist (List.take_sublist _ _)
      (pairwise_desc_mergeSort _)

/-- Witness for C3: in a one-player versus one-player league (values 100 and
110) the single value-improvement candidate gains value and is fair. -/
theorem value_improvement_invariant_witness :
    (⟨[1], [2], 100, 110, 10, none, none, false⟩ : Trade) ∈
      generate_value_improvement_trades [1] [2] [(1, 100), (2, 110)] 3 ∧
    ((⟨[1], [2], 100, 110, 10, none, none, false⟩ : Trade).you_receive_value >
      (⟨[1], [2], 100, 110, 10, none, none, false⟩ : Trade).you_give_value ∧
     is_fair_trade
       (⟨[1], [2], 100, 110, 10, none, none, false⟩ : Trade).you_give_value
       (⟨[1], [2], 100, 110, 10, none, none, false⟩ : Trade).you_receive_value
       = true) := by
  have hmem : (⟨[1], [2], 100, 110, 10, none, none, false⟩ : Trade) ∈
      generate_value_improvement_trades [1] [2] [(1, 100), (2, 110)] 3 := by
    have l1 : lookupVal [(1, 100), (2, 110)] 1 = 100 := rfl
    have l2 : lookupVal [(1, 100), (2, 110)] 2 = 110 := rfl
    have f1 : is_fair_trade 100 110 = true := by
      unfold is_fair_trade FAIR_TRADE_THRESHOLD
      rw [max_def, min_def]
      norm_num
    norm_num [generate_value_improvement_trades, vi_candidates, combinations,
      calculate_trade_value, List.range', List.filterMap_cons,
      List.filterMap_nil, List.map_cons, List.map_nil, List.sum_cons,
      List.sum_nil, List.flatMap_cons, List.flatMap_nil, l1, l2, f1]
  exact ⟨hmem, (value_improvement_invariant_and_ranking [1] [2]
    [(1, 100), (2, 110)] 3).1 _ hmem⟩

/-- C5: for every strategy, every returned candidate has non-empty give and
receive sides, the two id sequences are disjoint, give is drawn from the
operator's roster and receive from the counterpart roster at evaluation
time. -/
theorem candidate_shape_invariant (my_roster opponent_roster : List PlayerId)
    (V : ValTable) (k k' : ℕ) (target : PlayerId)
    (selected_give selected_receive my_roster' : List PlayerId)
    (all_rosters : List Roster)
    (hdisj : ∀ x ∈ my_roster, x ∉ opponent_roster)
    (hsg : ∀ x ∈ selected_give, x ∈ my_roster')
    (hsr : ∀ x ∈ selected_receive, x ∉ my_roster') :
    (∀ t ∈ generate_target_player_trades target my_roster opponent_roster V k,
      t.you_give_ids ≠ [] ∧ t.you_receive_ids ≠ [] ∧
      (∀ x ∈ t.you_give_ids, x ∈ my_roster) ∧
      (∀ x ∈ t.you_receive_ids, x ∈ opponent_roster) ∧
      (∀ x ∈ t.you_give_ids, x ∉ t.you_receive_ids)) ∧
    (∀ t ∈ generate_value_improvement_trades my_roster opponent_roster V k,
      t.you_give_ids ≠ [] ∧ t.you_receive_ids ≠ [] ∧
      (∀ x ∈ t.you_give_ids, x ∈ my_roster) ∧
      (∀ x ∈ t.you_receive_ids, x ∈ opponent_roster) ∧
      (∀ x ∈ t.you_give_ids, x ∉ t.you_receive_ids)) ∧
    (∀ t ∈ generate_consolidation_trades my_roster opponent_roster V,
      t.you_give_ids ≠ [] ∧ t.you_receive_ids ≠ [] ∧
      (∀ x ∈ t.you_give_ids, x ∈ my_roster) ∧
      (∀ x ∈ t.you_receive_ids, x ∈ opponent_roster) ∧
      (∀ x ∈ t.you_give_ids, x ∉ t.you_receive_ids)) ∧
    (∀ t ∈ generate_buy_low_trades my_roster opponent_roster V k',
      t.you_give_ids ≠ [] ∧ t.you_receive_ids ≠ [] ∧
      (∀ x ∈ t.you_give_ids, x ∈ my_roster) ∧
      (∀ x ∈ t.you_receive_ids, x ∈ opponent_roster) ∧
      (∀ x ∈ t.you_give_ids, x ∉ t.you_receive_ids)) ∧
    (∀ t ∈ generate_custom_trades selected_give selected_receive my_roster'
        all_rosters V,
      t.you_give_ids ≠ [] ∧ t.you_receive_ids ≠ [] ∧
      (∀ x ∈ t.you_give_ids, x ∈ my_roster') ∧
      (∃ r ∈ all_rosters, t.team_id = some r.roster_id ∧
        ∀ x ∈ t.you_receive_ids, x ∈ r.players) ∧
      (∀ x ∈ t.you_give_ids, x ∉ t.you_receive_ids)) := by
  have base : ∀ {t : Trade},
      t.you_give_ids ∈ enumerate_subsets my_roster k →
      (∀ x ∈ t.you_receive_ids, x ∈ opponent_roster) →
      t.you_receive_ids ≠ [] →
      t.you_give_ids ≠ [] ∧ t.you_receive_ids ≠ [] ∧
      (∀ x ∈ t.you_give_ids, x ∈ my_roster) ∧
      (∀ x ∈ t.you_receive_ids, x ∈ opponent_roster) ∧
      (∀ x ∈ t.you_give_ids, x ∉ t.you_receive_ids) := by
    intro t hg hr hrne
    obtain ⟨hsub, hlen, _⟩ := mem_enumerate_subsets.mp hg
    have hgsub : ∀ x ∈ t.you_give_ids, x ∈ my_roster := fun x hx =>
      hsub.subset hx
    exact ⟨fun he => by simp [he] at hlen, hrne, hgsub, hr,
      fun x hx hxr => hdisj x (hgsub x hx) (hr x hxr)⟩
  refine ⟨fun t ht => ?_, fun t ht => ?_, fun t ht => ?_, fun t ht => ?_,
    fun t ht => ?_⟩
  · obtain ⟨hg, hr, htgt, _⟩ := mem_target_trades ht
    exact base hg (by simp [hr, htgt]) (by simp [hr])
  · obtain ⟨hg, hr, -⟩ := mem_vi_candidates (mem_value_improvement ht)
    obtain ⟨hsub, hlen, -⟩ := mem_enumerate_subsets.mp hr
    exact base hg (fun x hx => hsub.subset hx) fun he => by simp [he] at hlen
  · have h := mem_consolidation_candidates
      (List.mem_mergeSort.mp ((List.take_subset _ _) ht))
    obtain ⟨hsub, hlen, hr, hrlen, -⟩ := h
    have hgsub : ∀ x ∈ t.you_give_ids, x ∈ my_roster := fun x hx =>
      hsub.subset hx
    refine ⟨fun he => by simp [he] at hlen, fun he => by simp [he] at hrlen,
      hgsub, hr, fun x hx hxr => hdisj x (hgsub x hx) (hr x hxr)⟩
  · have hvi : t ∈ generate_value_improvement_trades my_roster opponent_roster
        V k' := by
      unfold generate_buy_low_trades at ht
      exact List.mem_of_mem_filter ((List.take_subset _ _) ht)
    obtain ⟨hg, hr, -⟩ := mem_vi_candidates (mem_value_improvement hvi)
    obtain ⟨hsub, hlen, -⟩ := mem_enumerate_subsets.mp hr
    have hgmem := mem_enumerate_subsets.mp hg
    have hgsub : ∀ x ∈ t.you_give_ids, x ∈ my_roster := fun x hx =>
      hgmem.1.subset hx
    have hrsub : ∀ x ∈ t.you_receive_ids, x ∈ opponent_roster := fun x hx =>
      hsub.subset hx
    refine ⟨fun he => by simp [he] at hgmem,
      fun he => by simp [he] at hlen, hgsub, hrsub,
      fun x hx hxr => hdisj x (hgsub x hx) (hrsub x hxr)⟩
  · obtain ⟨hne, hrec, ⟨r, hr, hid, hall⟩, hgive⟩ := mem_custom_trades ht
    have hgsub : ∀ x ∈ t.you_give_ids, x ∈ my_roster' := by
      rcases hgive with ⟨heq, -⟩ | ⟨p, hp, -, heq⟩ <;> rw [heq]
      · exact hsg
      · intro x hx
        rcases List.mem_append.mp hx with h | h
        · exact hsg x h
        · simp only [List.mem_singleton] at h
          exact h ▸ hp
    have hgne : t.you_give_ids ≠ [] := by
      rcases hgive with ⟨heq, hfair⟩ | ⟨p, hp, -, heq⟩
      · intro he
        have h0 := (is_fair_trade_ne_zero hfair).1
        rw [heq] at he
        rw [he] at h0
        simp at h0
      · rw [heq]; simp
    have hrall : ∀ x ∈ t.you_receive_ids, x ∈ r.players := by
      rw [hrec]; exact hall
    refine ⟨hgne, by simp [hrec, hne], hgsub, ⟨r, hr, hid, hrall⟩,
      fun x hx hxr => ?_⟩
    rw [hrec] at hxr
    exact hsr x hxr (hgsub x hx)

/-- Witness for C5 on the end-to-end example rosters. -/
theorem candidate_shape_invariant_witness :
    (∀ x ∈ ([1, 2] : List PlayerId), x ∉ ([3] : List PlayerId)) ∧
    (∀ x ∈ ([1] : List PlayerId), x ∈ ([1, 2] : List PlayerId)) ∧
    (∀ x ∈ ([3] : List PlayerId), x ∉ ([1, 2] : List PlayerId)) ∧
    (∀ t ∈ generate_custom_trades [1] [3] [1, 2] [⟨7, [3]⟩]
        [(1, 50), (2, 60), (3, 105)],
      t.you_give_ids ≠ [] ∧ t.you_receive_ids ≠ [] ∧
      (∀ x ∈ t.you_give_ids, x ∈ ([1, 2] : List PlayerId)) ∧
      (∃ r ∈ [(⟨7, [3]⟩ : Roster)], t.team_id = some r.roster_id ∧
        ∀ x ∈ t.you_receive_ids, x ∈ r.players) ∧
      (∀ x ∈ t.you_give_ids, x ∉ t.you_receive_ids)) :=
  ⟨by decide, by decide, by decide,
    (candidate_shape_invariant [1, 2] [3] [(1, 50), (2, 60), (3, 105)] 3 2 3
      [1] [3] [1, 2] [⟨7, [3]⟩] (by decide) (by decide) (by decide)).2.2.2.2⟩

/-- C6: for a counterpart roster holding every requested receive player whose
initial give/receive selection fails fairness, augmentation happens only when
the receive value exceeds the give value; it then tries each single
not-yet-selected player of the operator's roster in roster order, emitting one
augmented candidate exactly when that addition makes the totals fair (never
two additional players); with no viable addition the roster contributes no
candidate, and the search is a total function, so it never raises. -/
theorem custom_balancing_single_augmentation
    (selected_give selected_receive my_roster : List PlayerId) (r : Roster)
    (V : ValTable)
    (hsr : selected_receive ≠ [])
    (hmem : ∀ p ∈ selected_receive, p ∈ r.players)
    (hunfair : is_fair_trade ((selected_give.map (lookupVal V)).sum)
      ((selected_receive.map (lookupVal V)).sum) = false) :
    ((selected_receive.map (lookupVal V)).sum ≤
        (selected_give.map (lookupVal V)).sum →
      generate_custom_trades selected_give selected_receive my_roster [r] V
        = []) ∧
    ((selected_give.map (lookupVal V)).sum <
        (selected_receive.map (lookupVal V)).sum →
      generate_custom_trades selected_give selected_receive my_roster [r] V =
        my_roster.filterMap fun p =>
          if p ∉ selected_give ∧
              is_fair_trade (((selected_give ++ [p]).map (lookupVal V)).sum)
                ((selected_receive.map (lookupVal V)).sum) = true then
            some { you_give_ids := selected_give ++ [p],
                   you_receive_ids := selected_receive,
                   you_give_value :=
                     ((selected_give ++ [p]).map (lookupVal V)).sum,
                   you_receive_value :=
                     (selected_receive.map (lookupVal V)).sum,
                   net_value := (selected_receive.map (lookupVal V)).sum -
                     ((selected_give ++ [p]).map (lookupVal V)).sum,
                   team_id := some r.roster_id, balanced := true }
          else none) ∧
    ((∀ p ∈ my_roster, p ∉ selected_give →
        is_fair_trade (((selected_give ++ [p]).map (lookupVal V)).sum)
          ((selected_receive.map (lookupVal V)).sum) = false) →
      generate_custom_trades selected_give selected_receive my_roster [r] V
        = []) ∧
    (∀ t ∈ generate_custom_trades selected_give selected_receive my_roster
        [r] V,
      ∃ p ∈ my_roster, p ∉ selected_give ∧
        t.you_give_ids = selected_give ++ [p]) := by
  have hstep : generate_custom_trades selected_give selected_receive
      my_roster [r] V =
      if (selected_receive.map (lookupVal V)).sum -
          (selected_give.map (lookupVal V)).sum > 0 then
        my_roster.filterMap fun player =>
          if player ∉ selected_give then
            if is_fair_trade
                (((selected_give ++ [player]).map (lookupVal V)).sum)
                ((selected_receive.map (lookupVal V)).sum) = true then
              some { you_give_ids := selected_give ++ [player],
                     you_receive_ids := selected_receive,
                     you_give_value :=
                       ((selected_give ++ [player]).map (lookupVal V)).sum,
                     you_receive_value :=
                       (selected_receive.map (lookupVal V)).sum,
                     net_value := (selected_receive.map (lookupVal V)).sum -
                       ((selected_give ++ [player]).map (lookupVal V)).sum,
                     team_id := some r.roster_id, balanced := true }
            else none
          else none
      else [] := by
    unfold generate_custom_trades
    rw [if_neg hsr]
    simp only [List.flatMap_cons, List.flatMap_nil, List.append_nil]
    rw [if_pos hmem, if_neg (by simp [hunfair])]
  have hmerge : ∀ L : List PlayerId,
      (L.filterMap fun player =>
        if player ∉ selected_give then
          if is_fair_trade
              (((selected_give ++ [player]).map (lookupVal V)).sum)
              ((selected_receive.map (lookupVal V)).sum) = true then
            some ({ you_give_ids := selected_give ++ [player],
                    you_receive_ids := selected_receive,
                    you_give_value :=
                      ((selected_give ++ [player]).map (lookupVal V)).sum,
                    you_receive_value :=
                      (selected_receive.map (lookupVal V)).sum,
                    net_value := (selected_receive.map (lookupVal V)).sum -
                      ((selected_give ++ [player]).map (lookupVal V)).sum,
                    team_id := some r.roster_id, balanced := true } : Trade)
          else none
        else none) =
      (L.filterMap fun p =>
        if p ∉ selected_give ∧
            is_fair_trade (((selected_give ++ [p]).map (lookupVal V)).sum)
              ((selected_receive.map (lookupVal V)).sum) = true then
          some { you_give_ids := selected_give ++ [p],
                 you_receive_ids := selected_receive,
                 you_give_value :=
                   ((selected_give ++ [p]).map (lookupVal V)).sum,
                 you_receive_value :=
                   (selected_receive.map (lookupVal V)).sum,
                 net_value := (selected_receive.map (lookupVal V)).sum -
                   ((selected_give ++ [p]).map (lookupVal V)).sum,
                 team_id := some r.roster_id, balanced := true }
        else none) := by
    intro L
    refine List.filterMap_congr fun p _ => ?_
    by_cases h1 : p ∈ selected_give
    · simp [h1]
    · by_cases h2 : is_fair_trade
          (((selected_give ++ [p]).map (lookupVal V)).sum)
          ((selected_receive.map (lookupVal V)).sum) = true
      · simp [h1, h2]
      · simp [h1, h2]
  refine ⟨fun hle => ?_, fun hlt => ?_, fun hnone => ?_, fun t ht => ?_⟩
  · rw [hstep, if_neg (by simp; linarith)]
  · rw [hstep, if_pos (by linarith), hmerge]
  · rcases le_or_lt ((selected_receive.map (lookupVal V)).sum)
        ((selected_give.map (lookupVal V)).sum) with hle | hlt
    · rw [hstep, if_neg (by simp; linarith)]
    · rw [hstep, if_pos (by linarith), hmerge]
      rw [List.filterMap_eq_nil_iff]
      intro p hp
      rw [if_neg]
      rintro ⟨h1, h2⟩
      rw [hnone p hp h1] at h2
      exact absurd h2 (by simp)
  · rcases le_or_lt ((selected_receive.map (lookupVal V)).sum)
        ((selected_give.map (lookupVal V)).sum) with hle | hlt
    · rw [hstep, if_neg (by simp; linarith)] at ht
      cases ht
    · rw [hstep, if_pos (by linarith), hmerge] at ht
      obtain ⟨p, hp, hsome⟩ := List.mem_filterMap.mp ht
      split at hsome
      · next hcond =>
        cases hsome
        exact ⟨p, hp, hcond.1, rfl⟩
      · cases hsome

/-- Witness for C6: give `[1]` (value 50) against receive `[3]` (value 105)
is unfair; the only single augmentation (adding player 2, value 60) makes the
totals `110` versus `105`, which is fair, so exactly that one balanced
candidate is produced. -/
theorem custom_balancing_single_augmentation_witness :
    ([3] : List PlayerId) ≠ [] ∧
    (∀ t ∈ generate_custom_trades [1] [3] [1, 2] [⟨7, [3]⟩]
        [(1, 50), (2, 60), (3, 105)],
      ∃ p ∈ ([1, 2] : List PlayerId), p ∉ ([1] : List PlayerId) ∧
        t.you_give_ids = [1] ++ [p]) := by
  have hu : is_fair_trade ((([1] : List PlayerId).map
        (lookupVal [(1, 50), (2, 60), (3, 105)])).sum)
      ((([3] : List PlayerId).map
        (lookupVal [(1, 50), (2, 60), (3, 105)])).sum) = false := by
    have l1 : lookupVal [(1, 50), (2, 60), (3, 105)] 1 = 50 := rfl
    have l3 : lookupVal [(1, 50), (2, 60), (3, 105)] 3 = 105 := rfl
    have e1 : (([1] : List PlayerId).map
        (lookupVal [(1, 50), (2, 60), (3, 105)])).sum = 50 := by
      simp [l1]
    have e2 : (([3] : List PlayerId).map
        (lookupVal [(1, 50), (2, 60), (3, 105)])).sum = 105 := by
      simp [l3]
    rw [e1, e2]
    unfold is_fair_trade FAIR_TRADE_THRESHOLD
    rw [max_def, min_def]
    norm_num
  exact ⟨by decide,
    (custom_balancing_single_augmentation [1] [3] [1, 2] ⟨7, [3]⟩
      [(1, 50), (2, 60), (3, 105)] (by decide) (by decide) hu).2.2.2⟩

/-- Witness for C9 on the table `[(1,5),(2,7)]`. -/
theorem calculate_trade_value_spec_witness :
    ([(1, 5), (2, 7)] : ValTable).lookup 1 = some 5 ∧
    ([(1, 5), (2, 7)] : ValTable).lookup 2 = some 7 ∧
    (calculate_trade_value [1, 2] [] [(1, 5), (2, 7)]).1 = 5 + 7 :=
  ⟨rfl, rfl, calculate_trade_value_spec.2.2 [(1, 5), (2, 7)] 1 2 5 7 rfl rfl⟩

/-- In a list sorted non-increasingly by net value, if at least `n` elements
have net value at least `c`, then the first `n` elements all do. -/
theorem take_of_sorted_high (c : ℚ) :
    ∀ (S : List Trade) (n : ℕ),
      S.Pairwise (fun a b => b.net_value ≤ a.net_value) →
      n ≤ (S.filter fun t => decide (c ≤ t.net_value)).length →
      ∀ t ∈ S.take n, c ≤ t.net_value := by
  intro S
  induction S with
  | nil => intro n _ _ t ht; simp at ht
  | cons x S ih =>
    intro n hsorted hn t ht
    cases n with
    | zero => simp at ht
    | succ m =>
      obtain ⟨hhead, htail⟩ := List.pairwise_cons.mp hsorted
      have hx : c ≤ x.net_value := by
        by_cases hcx : c ≤ x.net_value
        · exact hcx
        · exfalso
          have hfil : List.filter (fun t => decide (c ≤ t.net_value)) (x :: S)
              = S.filter fun t => decide (c ≤ t.net_value) := by
            simp [List.filter_cons, hcx]
          rw [hfil] at hn
          obtain ⟨y, hy⟩ := List.exists_mem_of_length_pos
            (show 0 < (S.filter fun t => decide (c ≤ t.net_value)).length by
              omega)
          obtain ⟨hyS, hcy⟩ := List.mem_filter.mp hy
          rw [decide_eq_true_eq] at hcy
          exact hcx (le_trans hcy (hhead y hyS))
      rcases List.mem_cons.mp (by simpa using ht) with rfl | ht'
      · exact hx
      · have hfil : (List.filter (fun t => decide (c ≤ t.net_value))
            (x :: S)).length
            = (S.filter fun t => decide (c ≤ t.net_value)).length + 1 := by
          simp [List.filter_cons, hx]
        exact ih m htail (by omega) t (by simpa using ht')

/-- Counterpart roster for the buy-low truncation-loss example: seven players
each valued 23. -/
def bl_opp : List PlayerId := [11, 12, 13, 14, 15, 16, 17]

/-- Valuation table for the buy-low truncation-loss example: player 1 is worth
40, player 2 is worth 21, all counterpart players are worth 23. -/
def bl_values : ValTable :=
  [(1, 40), (2, 21), (11, 23), (12, 23), (13, 23), (14, 23), (15, 23),
   (16, 23), (17, 23)]

/-- The full value-improvement candidate pool of the buy-low example: seven
1-for-1 candidates of net value 2 that satisfy the buy-low shape condition,
and twenty-one 1-for-2 candidates of net value 6 that do not. -/
def bl_candidates : List Trade :=
  [⟨[2], [11], 21, 23, 2, none, none, false⟩,
   ⟨[2], [12], 21, 23, 2, none, none, false⟩,
   ⟨[2], [13], 21, 23, 2, none, none, false⟩,
   ⟨[2], [14], 21, 23, 2, none, none, false⟩,
   ⟨[2], [15], 21, 23, 2, none, none, false⟩,
   ⟨[2], [16], 21, 23, 2, none, none, false⟩,
   ⟨[2], [17], 21, 23, 2, none, none, false⟩,
   ⟨[1], [11, 12], 40, 46, 6, none, none, false⟩,
   ⟨[1], [11, 13], 40, 46, 6, none, none, false⟩,
   ⟨[1], [11, 14], 40, 46, 6, none, none, false⟩,
   ⟨[1], [11, 15], 40, 46, 6, none, none, false⟩,
   ⟨[1], [11, 16], 40, 46, 6, none, none, false⟩,
   ⟨[1], [11, 17], 40, 46, 6, none, none, false⟩,
   ⟨[1], [12, 13], 40, 46, 6, none, none, false⟩,
   ⟨[1], [12, 14], 40, 46, 6, none, none, false⟩,
   ⟨[1], [12, 15], 40, 46, 6, none, none, false⟩,
   ⟨[1], [12, 16], 40, 46, 6, none, none, false⟩,
   ⟨[1], [12, 17], 40, 46, 6, none, none, false⟩,
   ⟨[1], [13, 14], 40, 46, 6, none, none, false⟩,
   ⟨[1], [13, 15], 40, 46, 6, none, none, false⟩,
   ⟨[1], [13, 16], 40, 46, 6, none, none, false⟩,
   ⟨[1], [13, 17], 40, 46, 6, none, none, false⟩,
   ⟨[1], [14, 15], 40, 46, 6, none, none, false⟩,
   ⟨[1], [14, 16], 40, 46, 6, none, none, false⟩,
   ⟨[1], [14, 17], 40, 46, 6, none, none, false⟩,
   ⟨[1], [15, 16], 40, 46, 6, none, none, false⟩,
   ⟨[1], [15, 17], 40, 46, 6, none, none, false⟩,
   ⟨[1], [16, 17], 40, 46, 6, none, none, false⟩]

theorem bl_vi_candidates_eq :
    vi_candidates [1, 2] bl_opp bl_values 2 = bl_candidates := by
  have l1 : lookupVal bl_values 1 = 40 := rfl
  have l2 : lookupVal bl_values 2 = 21 := rfl
  have l11 : lookupVal bl_values 11 = 23 := rfl
  have l12 : lookupVal bl_values 12 = 23 := rfl
  have l13 : lookupVal bl_values 13 = 23 := rfl
  have l14 : lookupVal bl_values 14 = 23 := rfl
  have l15 : lookupVal bl_values 15 = 23 := rfl
  have l16 : lookupVal bl_values 16 = 23 := rfl
  have l17 : lookupVal bl_values 17 = 23 := rfl
  have f1 : is_fair_trade 21 23 = true := by
    unfold is_fair_trade FAIR_TRADE_THRESHOLD; rw [max_def, min_def]; norm_num
  have f2 : is_fair_trade 40 46 = true := by
    unfold is_fair_trade FAIR_TRADE_THRESHOLD; rw [max_def, min_def]; norm_num
  have f3 : is_fair_trade 21 46 = false := by
    unfold is_fair_trade FAIR_TRADE_THRESHOLD; rw [max_def, min_def]; norm_num
  norm_num [vi_candidates, combinations, calculate_trade_value, List.range',
    bl_opp, bl_candidates, List.filterMap_cons, List.filterMap_nil,
    List.map_cons, List.map_nil, List.sum_cons, List.sum_nil,
    List.flatMap_cons, List.flatMap_nil, l1, l2, l11, l12, l13, l14, l15,
    l16, l17, f1, f2, f3]

/-- C10: buy-low is exactly the value-improvement pass with subset size 2,
filtered to candidates receiving at most as many players as given, first 15;
every buy-low candidate is in value-improvement's top-20 list; and on the
`bl_*` example buy-low returns no candidate at all even though seven trades in
the full search space satisfy every buy-low keep-condition. -/
theorem buy_low_refines_value_improvement :
    (∀ (my_roster opponent_roster : List PlayerId) (V : ValTable),
      generate_buy_low_trades my_roster opponent_roster V =
        ((generate_value_improvement_trades my_roster opponent_roster
            V 2).filter fun t =>
          t.you_receive_ids.length ≤ t.you_give_ids.length).take 15) ∧
    (∀ (my_roster opponent_roster : List PlayerId) (V : ValTable) (t : Trade),
      t ∈ generate_buy_low_trades my_roster opponent_roster V →
      t ∈ generate_value_improvement_trades my_roster opponent_roster V 2) ∧
    (generate_buy_low_trades [1, 2] bl_opp bl_values = [] ∧
      ((vi_candidates [1, 2] bl_opp bl_values 2).filter fun t =>
        t.you_receive_ids.length ≤ t.you_give_ids.length).length = 7) := by
  refine ⟨fun my_roster opponent_roster V => rfl,
    fun my_roster opponent_roster V t ht =>
      List.mem_of_mem_filter ((List.take_subset _ _) ht), ?_, ?_⟩
  · have hsorted := pairwise_desc_mergeSort
      (vi_candidates [1, 2] bl_opp bl_values 2)
    have hperm : List.Perm ((vi_candidates [1, 2] bl_opp bl_values 2).mergeSort
        byNetValueDesc) bl_candidates := by
      rw [bl_vi_candidates_eq]
      exact List.mergeSort_perm _ _
    have hflen : (((vi_candidates [1, 2] bl_opp bl_values 2).mergeSort
          byNetValueDesc).filter fun t =>
            decide ((6 : ℚ) ≤ t.net_value)).length = 21 := by
      rw [(hperm.filter _).length_eq]
      decide
    have htake : ∀ t ∈ ((vi_candidates [1, 2] bl_opp bl_values 2).mergeSort
        byNetValueDesc).take 20, (6 : ℚ) ≤ t.net_value :=
      take_of_sorted_high 6 _ 20 hsorted (by omega)
    have hnone : ∀ t ∈ bl_candidates,
        (6 : ℚ) ≤ t.net_value →
        ¬(t.you_receive_ids.length ≤ t.you_give_ids.length) := by
      decide
    have hempty : (((vi_candidates [1, 2] bl_opp bl_values 2).mergeSort
        byNetValueDesc).take 20).filter (fun t =>
          decide (t.you_receive_ids.length ≤ t.you_give_ids.length)) = [] := by
      rw [List.filter_eq_nil_iff]
      intro t ht
      have h6 := htake t ht
      have htL : t ∈ bl_candidates :=
        hperm.mem_iff.mp ((List.take_subset _ _) ht)
      simpa using hnone t htL h6
    unfold generate_buy_low_trades generate_value_improvement_trades
    dsimp only
    rw [hempty]
    rfl
  · rw [bl_vi_candidates_eq]
    decide

/-- Witness for C10: the single value-improvement candidate of a one-player
versus one-player league is returned by buy-low, and the theorem places it in
the value-improvement list. -/
theorem buy_low_refines_value_improvement_witness :
    (⟨[1], [2], 100, 110, 10, none, none, false⟩ : Trade) ∈
      generate_buy_low_trades [1] [2] [(1, 100), (2, 110)] ∧
    (⟨[1], [2], 100, 110, 10, none, none, false⟩ : Trade) ∈
      generate_value_improvement_trades [1] [2] [(1, 100), (2, 110)] 2 := by
  have hmem : (⟨[1], [2], 100, 110, 10, none, none, false⟩ : Trade) ∈
      generate_buy_low_trades [1] [2] [(1, 100), (2, 110)] := by
    have l1 : lookupVal [(1, 100), (2, 110)] 1 = 100 := rfl
    have l2 : lookupVal [(1, 100), (2, 110)] 2 = 110 := rfl
    have f1 : is_fair_trade 100 110 = true := by
      unfold is_fair_trade FAIR_TRADE_THRESHOLD
      rw [max_def, min_def]
      norm_num
    norm_num [generate_buy_low_trades, generate_value_improvement_trades,
      vi_candidates, combinations, calculate_trade_value, List.range',
      List.filterMap_cons, List.filterMap_nil, List.map_cons, List.map_nil,
      List.sum_cons, List.sum_nil, List.flatMap_cons, List.flatMap_nil,
      l1, l2, f1]
  exact ⟨hmem, buy_low_refines_value_improvement.2.1 [1] [2]
    [(1, 100), (2, 110)] _ hmem⟩

end TradeBot
